import Mathlib

/-!
# Verification of the sara_kas order-to-inventory reconciliation engine

Shallow embedding of the repository's Python modules:

* `models.py`            — the table row types (`Product`, `Stock`, `StockInventory`,
                           `KaspiOrder`, `KaspiSoldProduct`, `KaspiCanceledOrder`);
* `stock_repository.py`  — the storage operations (`get_stock_quantity`,
                           `update_stock_quantity_and_log`, `is_order_processed`,
                           `save_order`, `get_order_products`, `save_canceled_order`,
                           `mark_order_as_canceled`, `is_order_canceled`,
                           `get_product_id`, `process_product_cancellation`);
* `stock_service.py`     — the per-order pipelines (`process_single_order`,
                           `cancel_single_order`), the batch processors
                           (`process_orders`, `cancel_orders_from_archive`) and
                           `save_waybill_links`;
* `main.py`              — the orchestration loop (acceptance gate, bounded-attempt
                           fulfillment loop with the cancellation interruption check,
                           waybill loop).

Modelling conventions:

* The database is a record of lists of rows (`DB`); every storage operation is a
  pure state transformer `DB → DB` (or a reader).  SQLAlchemy session/commit
  mechanics are abstracted: an operation's logical writes take effect when the
  operation's Python code reaches its commit, and a session abandoned by an
  early `return` discards its pending inserts (relevant in
  `process_product_cancellation`, whose `save_canceled_order` insert is only
  committed on the path that reaches the final `session.commit()`).
* External collaborators (the kaspi.kz feed, `accept_order`, `create_invoice`)
  are parameters: feed responses are explicit arguments, remote-call outcomes
  are `Bool` arguments or `Nat → Bool` per-attempt oracles.
* `asyncio` concurrency is collapsed to sequential execution in list order; the
  semaphore bounds load only and the claims here are about the sequential
  data-flow (set membership, idempotence, guard logic).
* `scalar_one_or_none` yields the unique matching row, `none` otherwise (the
  SQLAlchemy call raises on more than one row; both the raise and the `none`
  leave the state unchanged in every caller modelled here).
* Python `s[-3:]` is `String.takeRight 3`; Python truthiness checks on ids
  (`if not order_id`) test for `none` or the empty string.
-/

namespace SaraKas

/-- `models.py` `Product` row (only the columns this core reads). -/
structure Product where
  id : Nat
  sku : String
  is_active : Bool
deriving DecidableEq

/-- `models.py` `Stock` row. -/
structure Stock where
  id : Nat
  name : String
  is_active : Bool
deriving DecidableEq

/-- `models.py` `StockInventory` row: quantity of a product at a stock location. -/
structure StockInventory where
  product_id : Nat
  stock_id : Nat
  quantity : Int
  is_active : Bool
deriving DecidableEq

/-- `models.py` `KaspiOrder` row: the locally persisted order header. -/
structure KaspiOrder where
  order_id : String
  order_code : String
  status : String
  stock_name : String
  invoice_generated : Bool
  is_canceled : Bool
deriving DecidableEq

/-- `models.py` `KaspiSoldProduct` row: one persisted line item of an order. -/
structure KaspiSoldProduct where
  order_id : String
  order_code : String
  product_code : String
  product_name : String
  quantity : Int
  waybill : Option String
deriving DecidableEq

/-- `models.py` `KaspiCanceledOrder` row: append-only audit of reversed line items. -/
structure KaspiCanceledOrder where
  order_id : String
  order_code : String
  product_code : String
deriving DecidableEq

/-- The database state: one list of rows per table touched by the core. -/
structure DB where
  products : List Product
  stocks : List Stock
  stock_inventory : List StockInventory
  kaspi_orders : List KaspiOrder
  kaspi_sold_products : List KaspiSoldProduct
  kaspi_canceled_orders : List KaspiCanceledOrder
deriving DecidableEq

/-- One line item of a marketplace feed order (`get_order_entries` element:
`entry["attributes"]["offer"]["code"]`, `...["quantity"]`, etc.). -/
structure OrderEntry where
  product_code : String
  product_name : String
  quantity : Int
  price : Int
deriving DecidableEq

/-- A marketplace feed order as the service layer reads it: `order.get("id")`,
`attributes.code/status/pickupPointId`, `attributes.kaspiDelivery.waybill`,
and the entries returned by `get_order_entries(order_id)`. -/
structure FeedOrder where
  id : Option String
  code : Option String
  status : Option String
  pickupPointId : Option String
  waybill : Option String
  entries : List OrderEntry
deriving DecidableEq

/-- SQLAlchemy `scalar_one_or_none`: the unique matching row, else `none`
(more than one row raises there; every modelled caller treats that branch as
leaving the state unchanged, as the `none` branch does). -/
def scalar_one_or_none {α : Type} (l : List α) : Option α :=
  match l with
  | [x] => some x
  | _ => none

/-- The `Stock` lookup of `update_stock_quantity_and_log`:
`Stock.name == stock_name AND Stock.is_active` (a `none` stock name, from a
failed header lookup, matches no row — SQL `NULL` comparison). -/
def find_stock (db : DB) (stock_name : Option String) : Option Stock :=
  scalar_one_or_none (db.stocks.filter fun s => (some s.name == stock_name) && s.is_active)

/-- The `Product` lookup of `update_stock_quantity_and_log`:
`Product.sku == product_code AND Product.is_active`. -/
def find_product (db : DB) (product_code : String) : Option Product :=
  scalar_one_or_none (db.products.filter fun p => (p.sku == product_code) && p.is_active)

/-- The `StockInventory` lookup of `update_stock_quantity_and_log`:
row for the resolved product and stock with `is_active`. -/
def find_inventory (db : DB) (p : Product) (s : Stock) : Option StockInventory :=
  scalar_one_or_none (db.stock_inventory.filter fun inv =>
    (inv.product_id == p.id) && (inv.stock_id == s.id) && inv.is_active)

/-- `stock_repository.get_stock_quantity`: joined read of
`StockInventory.quantity` filtered by product sku, stock name, inventory and
stock activity; `0` when no row matches.  The `for_update` flag only affects
row locking and is not part of the sequential model. -/
def get_stock_quantity (db : DB) (product_code : String) (stock_name : Option String) : Int :=
  match db.stock_inventory.find? (fun inv =>
      inv.is_active
      && db.products.any (fun p => (p.id == inv.product_id) && (p.sku == product_code))
      && db.stocks.any (fun s =>
          (s.id == inv.stock_id) && (some s.name == stock_name) && s.is_active)) with
  | some inv => inv.quantity
  | none => 0

/-- `stock_repository.update_stock_quantity_and_log`: resolves stock, product
and inventory row in that order, warning and returning unchanged when any is
missing/inactive or when `new_quantity < 0`; otherwise writes `new_quantity`
into the inventory row.  `order_quantity` and `operation` only fed the removed
sync journal and are kept for signature fidelity. -/
def update_stock_quantity_and_log (db : DB) (product_code : String) (new_quantity : Int)
    (order_quantity : Int) (operation : String) (stock_name : Option String) : DB :=
  match find_stock db stock_name with
  | none => db
  | some stock =>
    match find_product db product_code with
    | none => db
    | some product =>
      match find_inventory db product stock with
      | none => db
      | some _ =>
        if new_quantity < 0 then db
        else { db with stock_inventory := db.stock_inventory.map fun inv =>
            if (inv.product_id == product.id) && (inv.stock_id == stock.id) && inv.is_active
            then { inv with quantity := new_quantity } else inv }

/-- `stock_repository.is_order_processed`: does a `KaspiOrder` row with this
order id exist (a `none` id, SQL `NULL`, matches no row). -/
def is_order_processed (db : DB) (order_id : Option String) : Bool :=
  db.kaspi_orders.any fun ko => some ko.order_id == order_id

/-- `stock_repository.save_order`: one transaction inserting the order header
and one `KaspiSoldProduct` row per feed entry. -/
def save_order (db : DB) (order_id order_code status stock_name : String)
    (products : List OrderEntry) : DB :=
  { db with
    kaspi_orders := db.kaspi_orders ++
      [{ order_id := order_id, order_code := order_code, status := status,
         stock_name := stock_name, invoice_generated := false, is_canceled := false }],
    kaspi_sold_products := db.kaspi_sold_products ++ products.map fun e =>
      { order_id := order_id, order_code := order_code, product_code := e.product_code,
        product_name := e.product_name, quantity := e.quantity, waybill := none } }

/-- `stock_repository.get_order_products`: `(product_code, quantity,
product_name)` of every persisted line item of the order. -/
def get_order_products (db : DB) (order_id : String) : List (String × Int × String) :=
  (db.kaspi_sold_products.filter fun sp => sp.order_id == order_id).map fun sp =>
    (sp.product_code, sp.quantity, sp.product_name)

/-- `stock_repository.save_canceled_order`: looks up the order code (empty
when the header is absent) and appends one `KaspiCanceledOrder` audit row. -/
def save_canceled_order (db : DB) (order_id product_code : String) : DB :=
  let order_code :=
    ((db.kaspi_orders.find? fun ko => ko.order_id == order_id).map KaspiOrder.order_code).getD ""
  { db with kaspi_canceled_orders := db.kaspi_canceled_orders ++
      [{ order_id := order_id, order_code := order_code, product_code := product_code }] }

/-- `stock_repository.mark_order_as_canceled`:
`UPDATE kaspi_orders SET is_canceled = TRUE WHERE order_id = :order_id`. -/
def mark_order_as_canceled (db : DB) (order_id : String) : DB :=
  { db with kaspi_orders := db.kaspi_orders.map fun ko =>
      if ko.order_id == order_id then { ko with is_canceled := true } else ko }

/-- `stock_repository.is_order_canceled`: `is_canceled` of the first header row
with this order id, `false` when there is none. -/
def is_order_canceled (db : DB) (order_id : String) : Bool :=
  match db.kaspi_orders.find? (fun ko => ko.order_id == order_id) with
  | some ko => ko.is_canceled
  | none => false

/-- `stock_repository.get_product_id`: first active product with the sku;
the Python `if not product_id` truthiness also rejects an id of `0`. -/
def get_product_id (db : DB) (product_code : String) : Option Nat :=
  match db.products.find? (fun p => (p.sku == product_code) && p.is_active) with
  | none => none
  | some p => if p.id == 0 then none else some p.id

/-- The stock-name lookup inside `stock_repository.process_product_cancellation`:
`SELECT stock_name FROM kaspi_orders ko JOIN kaspi_sold_products ksp
 ON ko.order_id = ksp.order_id WHERE ksp.product_code = :product_code LIMIT 1`.
Note the `WHERE` filters by product code only — the id of the order being
cancelled does not appear — so the first sold-product row (table order) with
that code that joins to a header supplies the stock name. -/
def cancellation_stock_name (db : DB) (product_code : String) : Option String :=
  match db.kaspi_sold_products.find? (fun ksp =>
      (ksp.product_code == product_code)
      && db.kaspi_orders.any fun ko => ko.order_id == ksp.order_id) with
  | some ksp =>
      (db.kaspi_orders.find? fun ko => ko.order_id == ksp.order_id).map KaspiOrder.stock_name
  | none => none

/-- `stock_repository.process_product_cancellation`: inside one transaction,
appends a `KaspiCanceledOrder` row, resolves a stock name (see
`cancellation_stock_name`), and — when the product resolves and the order is
not already cancelled — restores `current + quantity`.  The early `return`
paths abandon the session before its commit, discarding the pending audit
insert, so they leave the state unchanged; the reads (stock name, product id,
cancellation flag, current quantity) never read the pending insert's table,
so evaluating them against the entry state is faithful. -/
def process_product_cancellation (db : DB) (product_code : String) (quantity : Int)
    (order_id : String) : DB :=
  match get_product_id db product_code with
  | none => db
  | some _ =>
    if is_order_canceled db order_id then db
    else
      let stock_name := cancellation_stock_name db product_code
      let current := get_stock_quantity db product_code stock_name
      update_stock_quantity_and_log (save_canceled_order db order_id product_code)
        product_code (current + quantity) quantity "return" stock_name

/-- Python `s[-3:]`: the last three characters (the whole string when shorter),
used to derive the stock location from the order's `pickupPointId`. -/
def lastThree (s : String) : String :=
  s.takeRight 3

/-- The availability pass of `process_single_order`: is some entry's current
quantity below the requested quantity (the first such entry makes the Python
loop return early; only the decision is observable). -/
def availability_short (db : DB) (stock_name : String) (entries : List OrderEntry) : Bool :=
  entries.any fun e =>
    decide (get_stock_quantity db e.product_code (some stock_name) < e.quantity)

/-- The commit pass of `process_single_order`: for each entry in order, read
the current quantity again, subtract the ordered quantity, write it back. -/
def decrement_entries (db : DB) (stock_name : String) (entries : List OrderEntry) : DB :=
  entries.foldl
    (fun d e =>
      update_stock_quantity_and_log d e.product_code
        (get_stock_quantity d e.product_code (some stock_name) - e.quantity)
        e.quantity "sales" (some stock_name))
    db

/-- `stock_service.process_single_order`: idempotency gate, stock-location
derivation from the pickup point id, lock-free availability pass over all
entries, commit pass (read again, subtract, write each entry), `save_order`,
then the external `create_invoice` call whose outcome is the `invoice_ok`
parameter.  Exceptions are caught and yield `false`: a `none` pickup point id
fails the slicing before any mutation, and a `none` id/code/status fails
`save_order`'s NOT NULL insert after the decrements but before the header and
line items are committed. -/
def process_single_order (invoice_ok : Bool) (db : DB) (order : FeedOrder) : Bool × DB :=
  if is_order_processed db order.id then (false, db)
  else
    match order.pickupPointId with
    | none => (false, db)
    | some pid =>
      if availability_short db (lastThree pid) order.entries then (false, db)
      else
        match order.id, order.code, order.status with
        | some oid, some oc, some st =>
            (invoice_ok,
              save_order (decrement_entries db (lastThree pid) order.entries)
                oid oc st (lastThree pid) order.entries)
        | _, _, _ => (false, decrement_entries db (lastThree pid) order.entries)

/-- The success/failed id lists returned by `stock_service.process_orders`. -/
structure BatchResult where
  success : List (Option String)
  failed : List (Option String)
deriving DecidableEq

/-- The per-order accumulation of `stock_service.process_orders`: each order's
`sem_task` runs `process_single_order` and appends the order's id to `success`
or to `failed` (an exception also lands in `failed`, which the total model
folds into the `false` outcome). -/
def process_orders_go (invoice_ok : Option String → Bool) :
    List FeedOrder → DB → List (Option String) → List (Option String) → BatchResult × DB
  | [], db, s, f => ({ success := s, failed := f }, db)
  | o :: rest, db, s, f =>
    let r := process_single_order (invoice_ok o.id) db o
    if r.1 then process_orders_go invoice_ok rest r.2 (s ++ [o.id]) f
    else process_orders_go invoice_ok rest r.2 s (f ++ [o.id])

/-- `stock_service.process_orders` over a fetched delivery batch, with the
`create_invoice` outcomes supplied per order id by `invoice_ok`. -/
def process_orders (invoice_ok : Option String → Bool) (db : DB)
    (orders : List FeedOrder) : BatchResult × DB :=
  process_orders_go invoice_ok orders db [] []

/-- `stock_service.cancel_single_order`: skips on a falsy id, an unrecorded or
already-cancelled order, or an order with no persisted line items; otherwise
runs `process_product_cancellation` for every persisted line item and only
then marks the order cancelled. -/
def cancel_single_order (db : DB) (order : FeedOrder) : DB :=
  match order.id with
  | none => db
  | some oid =>
    if oid = "" then db
    else if is_order_processed db (some oid) = false then db
    else if is_order_canceled db oid = true then db
    else
      let products := get_order_products db oid
      if products = [] then db
      else
        mark_order_as_canceled
          (products.foldl (fun d pr => process_product_cancellation d pr.1 pr.2.1 oid) db)
          oid

/-- The `sem_task` body of `cancel_orders_from_archive`: cancel one archived
order, then append its order id to `canceled_ids` whenever the id is truthy —
whatever the cancellation attempt did. -/
def cancel_archive_task (acc : DB × List String) (o : FeedOrder) : DB × List String :=
  let d1 := cancel_single_order acc.1 o
  match o.id with
  | some oid => if oid = "" then (d1, acc.2) else (d1, acc.2 ++ [oid])
  | none => (d1, acc.2)

/-- `stock_service.cancel_orders_from_archive` (and its `RETURNED` twin
`cancel_orders_from_returned_archive`, whose body is identical): run
`cancel_single_order` on every fetched archived order and collect every truthy
order id into `canceled_ids`. -/
def cancel_orders_from_archive (db : DB) (archived : List FeedOrder) : DB × List String :=
  archived.foldl cancel_archive_task (db, [])

/-- `stock_service.save_waybill_links`: for every delivery-batch order carrying
a waybill, writes the waybill onto all its `KaspiSoldProduct` rows and runs
`UPDATE kaspi_orders SET invoice_generated = TRUE ... RETURNING
invoice_generated`; the returned scalar (true iff a header row was updated)
decides membership in the returned id list. -/
def save_waybill_step (acc : DB × List (Option String)) (o : FeedOrder) :
    DB × List (Option String) :=
  match o.waybill with
  | none => acc
  | some wb =>
    let d := acc.1
    let sold := d.kaspi_sold_products.map fun (sp : KaspiSoldProduct) =>
      if (some sp.order_id == o.id) then { sp with waybill := some wb } else sp
    let d1 := { d with kaspi_sold_products := sold }
    let hdrs := d1.kaspi_orders.map fun (ko : KaspiOrder) =>
      if (some ko.order_id == o.id) then { ko with invoice_generated := true } else ko
    let d2 := { d1 with kaspi_orders := hdrs }
    if d.kaspi_orders.any (fun ko => some ko.order_id == o.id)
    then (d2, acc.2 ++ [o.id]) else (d2, acc.2)

/-- `stock_service.save_waybill_links` over a fetched delivery batch. -/
def save_waybill_links (db : DB) (orders : List FeedOrder) : DB × List (Option String) :=
  orders.foldl save_waybill_step (db, [])

/-- A new-order feed element as `process_new_orders` reads it. -/
structure NewOrder where
  id : Option String
  code : Option String
  status : Option String
deriving DecidableEq

/-- The result dict of `stock_service.process_new_orders`; `skipped` collects
mixed payloads (whole orders or ids) so only its size is modelled. -/
structure NewOrdersResult where
  processed : Nat
  success : List String
  failed : List String
  skipped : Nat
deriving DecidableEq

/-- Python truthiness of an optional id/code string: `none` and `""` are falsy. -/
def truthy : Option String → Bool
  | none => false
  | some s => s != ""

/-- `stock_service.process_new_orders`: validates id/code, skips orders whose
status is set and differs from `APPROVED_BY_BANK`, then tries the marketplace
accept call up to `max_retries + 1 = 3` times (`accept oid k` is the outcome of
the k-th call; an exception behaves like a `False` result); the order id lands
in `success` on the first `True`, in `failed` when all three calls fail. -/
def process_new_orders (accept : String → Nat → Bool) (orders : List NewOrder) :
    NewOrdersResult :=
  orders.foldl
    (fun acc o =>
      if !(truthy o.id && truthy o.code) then { acc with skipped := acc.skipped + 1 }
      else if truthy o.status && (o.status != some "APPROVED_BY_BANK") then
        { acc with skipped := acc.skipped + 1 }
      else
        let oid := o.id.getD ""
        if accept oid 0 || accept oid 1 || accept oid 2 then
          { acc with success := acc.success ++ [oid], processed := acc.processed + 1 }
        else
          { acc with failed := acc.failed ++ [oid], processed := acc.processed + 1 })
    { processed := 0, success := [], failed := [], skipped := 0 }

/-- How a bounded-attempt loop in `main` ended: `success` via `break`,
`aborted` via the cancellation-interruption `return`, `exhausted` via the
`for`/`else` fall-through. -/
inductive LoopExit where
  | success
  | aborted
  | exhausted
deriving DecidableEq

/-- Observable trace of one bounded-attempt loop of `main`: which attempt
numbers executed and what each produced (`α` is the per-attempt phase result),
which attempts were followed by an archive-cancellation pass and the canceled
ids that pass returned, and how the loop ended. -/
structure LoopTrace (α : Type) where
  attempts : List (Nat × α)
  cancel_passes : List (Nat × List String)
  exit : LoopExit
deriving DecidableEq

/-- The external responses `main` consumes: accept/invoice outcomes, the two
initial archive fetches, the new-order feed, and per-attempt delivery/archive
fetches for the fulfillment (`_f`) and waybill (`_w`) loops. -/
structure MainEnv where
  accept : String → Nat → Bool
  invoice_ok : Option String → Bool
  returned_archive : List FeedOrder
  first_archive : List FeedOrder
  new_orders : List NewOrder
  delivery_f : Nat → List FeedOrder
  archive_f : Nat → List FeedOrder
  delivery_w : Nat → List FeedOrder
  archive_w : Nat → List FeedOrder

/-- The fulfillment retry loop of `main` (`for attempt in range(1, MAX_ATTEMPTS+1)`):
run `process_orders` over the delivery batch; `break` on a non-empty success
set; otherwise re-run `cancel_orders_from_archive` and `return` (abort) when
any originally accepted order id appears among its canceled ids; else sleep
and try the next attempt.  Arguments: current attempt number, attempts left. -/
def fulfillment_loop_go (env : MainEnv) (new_ids : List String) :
    Nat → Nat → DB → DB × LoopTrace BatchResult
  | _, 0, db => (db, { attempts := [], cancel_passes := [], exit := .exhausted })
  | attempt, n + 1, db =>
    let r := process_orders env.invoice_ok db (env.delivery_f attempt)
    if r.1.success ≠ [] then
      (r.2, { attempts := [(attempt, r.1)], cancel_passes := [], exit := .success })
    else
      let c := cancel_orders_from_archive r.2 (env.archive_f attempt)
      if new_ids.any (fun oid => c.2.contains oid) then
        (c.1, { attempts := [(attempt, r.1)], cancel_passes := [(attempt, c.2)],
                exit := .aborted })
      else
        let t := fulfillment_loop_go env new_ids (attempt + 1) n c.1
        (t.1, { attempts := (attempt, r.1) :: t.2.attempts,
                cancel_passes := (attempt, c.2) :: t.2.cancel_passes, exit := t.2.exit })

/-- The waybill retry loop of `main`: run `save_waybill_links`; `break` when
its returned id list contains any originally accepted order id (Python
`if waybill_result and any(...)`, and `any` already forces non-emptiness);
otherwise the same archive-cancellation interruption check as the
fulfillment loop. -/
def waybill_loop_go (env : MainEnv) (new_ids : List String) :
    Nat → Nat → DB → DB × LoopTrace (List (Option String))
  | _, 0, db => (db, { attempts := [], cancel_passes := [], exit := .exhausted })
  | attempt, n + 1, db =>
    let r := save_waybill_links db (env.delivery_w attempt)
    if new_ids.any (fun oid => r.2.contains (some oid)) then
      (r.1, { attempts := [(attempt, r.2)], cancel_passes := [], exit := .success })
    else
      let c := cancel_orders_from_archive r.1 (env.archive_w attempt)
      if new_ids.any (fun oid => c.2.contains oid) then
        (c.1, { attempts := [(attempt, r.2)], cancel_passes := [(attempt, c.2)],
                exit := .aborted })
      else
        let t := waybill_loop_go env new_ids (attempt + 1) n c.1
        (t.1, { attempts := (attempt, r.2) :: t.2.attempts,
                cancel_passes := (attempt, c.2) :: t.2.cancel_passes, exit := t.2.exit })

/-- `main.py` `MAX_ATTEMPTS`. -/
def MAX_ATTEMPTS : Nat := 5

/-- Observable outcome of one `main` run: the acceptance-phase result and the
traces of the two bounded-attempt loops (`none` when the phase never ran),
plus the final database state. -/
structure MainTrace where
  new_result : NewOrdersResult
  fulfillment : Option (LoopTrace BatchResult)
  waybill : Option (LoopTrace (List (Option String)))
  db : DB
deriving DecidableEq

/-- `main.main`: returned-archive cancellation pass, general archive
cancellation pass, new-order acceptance; then `return` when the acceptance
result has a non-empty `failed` list (before any fulfillment attempt);
otherwise, when some orders were accepted, the fulfillment retry loop, whose
cancellation-abort `return` also skips the waybill loop. -/
def main (env : MainEnv) (db : DB) : MainTrace :=
  let db1 := (cancel_orders_from_archive db env.returned_archive).1
  let db2 := (cancel_orders_from_archive db1 env.first_archive).1
  let nr := process_new_orders env.accept env.new_orders
  if nr.failed ≠ [] then
    { new_result := nr, fulfillment := none, waybill := none, db := db2 }
  else if nr.success ≠ [] then
    let f := fulfillment_loop_go env nr.success 1 MAX_ATTEMPTS db2
    match f.2.exit with
    | .aborted => { new_result := nr, fulfillment := some f.2, waybill := none, db := f.1 }
    | _ =>
      let w := waybill_loop_go env nr.success 1 MAX_ATTEMPTS f.1
      { new_result := nr, fulfillment := some f.2, waybill := some w.2, db := w.1 }
  else
    { new_result := nr, fulfillment := none, waybill := none, db := db2 }

/-- Argument record of one `update_stock_quantity_and_log` call. -/
structure UpdateCall where
  product_code : String
  new_quantity : Int
  order_quantity : Int
  operation : String
  stock_name : Option String
deriving DecidableEq

/-- `update_stock_quantity_and_log` applied to a packaged argument record. -/
def apply_update (db : DB) (c : UpdateCall) : DB :=
  update_stock_quantity_and_log db c.product_code c.new_quantity c.order_quantity
    c.operation c.stock_name

/-- The state-mutating operations of the engine, closed under sequencing: a
raw stock write, the per-order pipelines, the batch processors and the
waybill pass. -/
inductive Op where
  | updateStock : UpdateCall → Op
  | processOrder : Bool → FeedOrder → Op
  | processBatch : (Option String → Bool) → List FeedOrder → Op
  | cancelOrder : FeedOrder → Op
  | cancelArchive : List FeedOrder → Op
  | waybillLinks : List FeedOrder → Op

/-- State transition of one operation. -/
def apply_op (db : DB) : Op → DB
  | .updateStock c => apply_update db c
  | .processOrder b o => (process_single_order b db o).2
  | .processBatch inv os => (process_orders inv db os).2
  | .cancelOrder o => cancel_single_order db o
  | .cancelArchive os => (cancel_orders_from_archive db os).1
  | .waybillLinks os => (save_waybill_links db os).1

/-- All stored stock quantities are non-negative. -/
def stockNonneg (db : DB) : Prop :=
  ∀ inv ∈ db.stock_inventory, 0 ≤ inv.quantity

/-!  ## Helper lemmas  -/

/-- The id a `cancel_orders_from_archive` task reports: the order id when
truthy, nothing otherwise. -/
def reported_id (o : FeedOrder) : Option String :=
  match o.id with
  | some oid => if oid = "" then none else some oid
  | none => none

theorem cancel_archive_task_snd (acc : DB × List String) (o : FeedOrder) :
    (cancel_archive_task acc o).2 = acc.2 ++ (reported_id o).toList := by
  unfold cancel_archive_task reported_id
  cases o.id with
  | none => simp
  | some oid => by_cases h : oid = "" <;> simp [h]

theorem cancel_archive_go_snd (archived : List FeedOrder) :
    ∀ (db : DB) (acc : List String),
      (archived.foldl cancel_archive_task (db, acc)).2
        = acc ++ archived.filterMap reported_id := by
  induction archived with
  | nil => intro db acc; simp
  | cons o rest ih =>
    intro db acc
    have hstep := cancel_archive_task_snd (db, acc) o
    have h := ih (cancel_archive_task (db, acc) o).1 (cancel_archive_task (db, acc) o).2
    simp only [List.foldl_cons]
    rw [h, hstep]
    cases hr : reported_id o <;> simp [List.filterMap_cons, hr]

/-!  ## C10 -/

/-- **C10**: the archive-cancellation pass returns the id of every fetched
archived order carrying a (truthy) id — the returned `canceled_ids` list is a
pure function of the fetched batch, independent of the database state, so an
order that was merely skipped (never recorded, or already canceled) still
appears among the canceled ids that `main` uses for its abort check. -/
theorem C10_canceled_ids_list_every_fetched_id (db : DB) (archived : List FeedOrder) :
    (cancel_orders_from_archive db archived).2 = archived.filterMap reported_id
    ∧ (∀ o ∈ archived, ∀ oid, o.id = some oid → oid ≠ "" →
        oid ∈ (cancel_orders_from_archive db archived).2) := by
  have h : (cancel_orders_from_archive db archived).2 = archived.filterMap reported_id := by
    unfold cancel_orders_from_archive
    simpa using cancel_archive_go_snd archived db []
  refine ⟨h, ?_⟩
  intro o ho oid hid hne
  rw [h]
  exact List.mem_filterMap.mpr ⟨o, ho, by simp [reported_id, hid, hne]⟩

def db10 : DB := ⟨[], [], [], [], [], []⟩

def o10 : FeedOrder :=
  { id := some "GHOST", code := none, status := none,
    pickupPointId := none, waybill := none, entries := [] }

theorem C10_canceled_ids_list_every_fetched_id_witness :
    "GHOST" ∈ (cancel_orders_from_archive db10 [o10]).2 :=
  (C10_canceled_ids_list_every_fetched_id db10 [o10]).2 o10 (by simp) "GHOST" rfl (by decide)

/-!  ## C4 -/

def db4 : DB :=
  { products := [⟨1, "P1", true⟩], stocks := [⟨1, "PP5", true⟩],
    stock_inventory := [⟨1, 1, 7, true⟩],
    kaspi_orders := [⟨"O1", "C1", "S", "PP5", false, false⟩],
    kaspi_sold_products := [⟨"O1", "C1", "P1", "N", 3, none⟩],
    kaspi_canceled_orders := [] }

def o4 : FeedOrder :=
  { id := some "O1", code := some "C1", status := some "S",
    pickupPointId := some "XPP5", waybill := some "WB1", entries := [] }

/-- **C4** (code bug): `db4` holds order `O1` with `invoice_generated = false`
(no invoicing ever succeeded for it; `mark_order_as_invoiced` is never called
anywhere in the program).  One `save_waybill_links` pass over a feed order for
`O1` that carries waybill `WB1` nevertheless persists the waybill on the line
item AND flips the order's `invoice_generated` flag to true itself — the
`UPDATE ... SET invoice_generated = TRUE` that the function's own comment
describes as a check — and reports the order as updated. -/
theorem C4_waybill_pass_sets_invoice_flag_itself :
    db4.kaspi_orders.map KaspiOrder.invoice_generated = [false]
    ∧ (save_waybill_links db4 [o4]).1.kaspi_orders.map KaspiOrder.invoice_generated = [true]
    ∧ (save_waybill_links db4 [o4]).1.kaspi_sold_products.map KaspiSoldProduct.waybill
        = [some "WB1"]
    ∧ (save_waybill_links db4 [o4]).2 = [some "O1"] := by
  decide

/-!  ## C6 -/

def db6 : DB :=
  { products := [⟨1, "P1", true⟩],
    stocks := [⟨1, "AAA", true⟩, ⟨2, "BBB", true⟩],
    stock_inventory := [⟨1, 1, 100, true⟩, ⟨1, 2, 50, true⟩],
    kaspi_orders := [⟨"O1", "C1", "S", "AAA", false, false⟩,
                     ⟨"O2", "C2", "S", "BBB", false, false⟩],
    kaspi_sold_products := [⟨"O1", "C1", "P1", "N", 4, none⟩,
                            ⟨"O2", "C2", "P1", "N", 3, none⟩],
    kaspi_canceled_orders := [] }

def o6 : FeedOrder :=
  { id := some "O2", code := some "C2", status := some "S",
    pickupPointId := none, waybill := none, entries := [] }

/-- **C6** (code bug): two recorded orders sell product `P1` — `O1` from stock
`AAA`, `O2` from stock `BBB`.  Cancelling `O2` resolves the restore location
by product code alone (`cancellation_stock_name`, whose `WHERE` lacks the
order id), yielding `AAA` from `O1`'s header although `O2`'s own persisted
header stores `BBB`; the reversal then restores `O2`'s quantity 3 onto the
`AAA` inventory row (100 → 103) and leaves the `BBB` row untouched. -/
theorem C6_cancel_restores_wrong_location :
    cancellation_stock_name db6 "P1" = some "AAA"
    ∧ (db6.kaspi_orders.find? fun ko => ko.order_id == "O2").map KaspiOrder.stock_name
        = some "BBB"
    ∧ (cancel_single_order db6 o6).stock_inventory
        = [⟨1, 1, 103, true⟩, ⟨1, 2, 50, true⟩]
    ∧ (cancel_single_order db6 o6).kaspi_orders.map KaspiOrder.is_canceled = [false, true] := by
  decide

/-!  ## C2 -/

/-- **C2**: whenever some line item's available quantity (read at the stock
location derived from the order's pickup point id) is below the requested
quantity, `process_single_order` returns `false` with the database exactly as
it was: no decrement, no order row, no line-item rows. -/
theorem C2_short_item_fails_order_without_mutation
    (invoice_ok : Bool) (db : DB) (order : FeedOrder) (pid : String)
    (hpid : order.pickupPointId = some pid)
    (hshort : ∃ e ∈ order.entries,
      get_stock_quantity db e.product_code (some (lastThree pid)) < e.quantity) :
    process_single_order invoice_ok db order = (false, db) := by
  cases hp : is_order_processed db order.id with
  | true => simp [process_single_order, hp]
  | false =>
    have hany : availability_short db (lastThree pid) order.entries = true := by
      unfold availability_short
      rw [List.any_eq_true]
      obtain ⟨e, he, hlt⟩ := hshort
      exact ⟨e, he, decide_eq_true hlt⟩
    simp [process_single_order, hp, hpid, hany]

def db2s : DB :=
  { products := [⟨1, "P1", true⟩], stocks := [⟨1, "PP5", true⟩],
    stock_inventory := [⟨1, 1, 2, true⟩],
    kaspi_orders := [], kaspi_sold_products := [], kaspi_canceled_orders := [] }

def o2s : FeedOrder :=
  { id := some "O1", code := some "C1", status := some "S",
    pickupPointId := some "XPP5", waybill := none,
    entries := [⟨"P1", "N", 5, 100⟩] }

theorem C2_short_item_fails_order_without_mutation_witness :
    process_single_order true db2s o2s = (false, db2s) :=
  C2_short_item_fails_order_without_mutation true db2s o2s "XPP5" rfl
    ⟨⟨"P1", "N", 5, 100⟩, by decide, by decide⟩

/-!  ## C3 -/

theorem process_orders_go_failed_mono (inv : Option String → Bool)
    (orders : List FeedOrder) :
    ∀ (db : DB) (s f : List (Option String)) (x : Option String),
      x ∈ f → x ∈ (process_orders_go inv orders db s f).1.failed := by
  induction orders with
  | nil => intro db s f x hx; simpa [process_orders_go] using hx
  | cons o rest ih =>
    intro db s f x hx
    cases hr : (process_single_order (inv o.id) db o).1 with
    | true => simpa [process_orders_go, hr] using ih _ _ _ x hx
    | false =>
      have : x ∈ f ++ [o.id] := List.mem_append_left _ hx
      simpa [process_orders_go, hr] using ih _ _ _ x this

def db3 : DB :=
  { products := [⟨1, "P1", true⟩], stocks := [⟨1, "PP5", true⟩],
    stock_inventory := [⟨1, 1, 7, true⟩],
    kaspi_orders := [⟨"O1", "C1", "S", "PP5", false, false⟩],
    kaspi_sold_products := [⟨"O1", "C1", "P1", "N", 3, none⟩],
    kaspi_canceled_orders := [] }

def o3 : FeedOrder :=
  { id := some "O1", code := some "C1", status := some "S",
    pickupPointId := some "XPP5", waybill := none,
    entries := [⟨"P1", "N", 3, 100⟩] }

/-- **C3** counterexample: order `O1` is already recorded in `db3`.  The
second `process_single_order` run on it is a no-op but returns `false`, and
the batch processor `process_orders` therefore classifies `O1` as failed
(empty success set) — refuting that the second call is reported as a
successful "already processed" outcome that the batch processor does not
count as failed. -/
theorem C3_counterexample_second_call_marked_failed :
    is_order_processed db3 (some "O1") = true
    ∧ process_single_order true db3 o3 = (false, db3)
    ∧ (process_orders (fun _ => true) db3 [o3]).1.success = []
    ∧ (process_orders (fun _ => true) db3 [o3]).1.failed = [some "O1"] := by
  decide

/-- **C3** amended: a second invocation of `process_single_order` on an
already-recorded order id performs no stock mutation and no persistence — the
state is returned unchanged — but it returns `false`, and the batch processor
places the order id in the failed set. -/
theorem C3_second_call_noop_but_failed (b : Bool) (inv : Option String → Bool)
    (db : DB) (o : FeedOrder) (rest : List FeedOrder)
    (h : is_order_processed db o.id = true) :
    process_single_order b db o = (false, db)
    ∧ o.id ∈ (process_orders inv db (o :: rest)).1.failed := by
  have h1 : process_single_order b db o = (false, db) := by
    simp [process_single_order, h]
  have h2 : process_single_order (inv o.id) db o = (false, db) := by
    simp [process_single_order, h]
  refine ⟨h1, ?_⟩
  simpa [process_orders, process_orders_go, h2]
    using process_orders_go_failed_mono inv rest db [] [o.id] o.id (by simp)

theorem C3_second_call_noop_but_failed_witness :
    process_single_order true db3 o3 = (false, db3)
    ∧ o3.id ∈ (process_orders (fun _ => true) db3 [o3]).1.failed :=
  C3_second_call_noop_but_failed true (fun _ => true) db3 o3 [] (by decide)

/-!  ## C9 -/

theorem process_orders_go_count (inv : Option String → Bool) (orders : List FeedOrder) :
    ∀ (db : DB) (s f : List (Option String)) (x : Option String),
      ((process_orders_go inv orders db s f).1.success.count x
        + (process_orders_go inv orders db s f).1.failed.count x)
      = s.count x + f.count x + ((orders.map FeedOrder.id).count x) := by
  induction orders with
  | nil => intro db s f x; simp [process_orders_go]
  | cons o rest ih =>
    intro db s f x
    cases hr : (process_single_order (inv o.id) db o).1 with
    | true =>
      simp only [process_orders_go, hr]
      rw [if_pos trivial, ih (process_single_order (inv o.id) db o).2 (s ++ [o.id]) f x]
      simp [List.count_append, List.count_cons]
      omega
    | false =>
      simp only [process_orders_go, hr]
      rw [if_neg (show ¬(false = true) from Bool.false_ne_true), ih (process_single_order (inv o.id) db o).2 s (f ++ [o.id]) x]
      simp [List.count_append, List.count_cons]
      omega

theorem count_le_one_of_nodup {l : List (Option String)} (h : l.Nodup) (a : Option String) :
    l.count a ≤ 1 := by
  induction l with
  | nil => simp
  | cons b t ih =>
    rw [List.nodup_cons] at h
    by_cases hab : b = a
    · subst hab
      rw [List.count_cons_self, List.count_eq_zero_of_not_mem h.1]
    · rw [List.count_cons_of_ne (fun hc => hab hc.symm)]
      exact ih h.2

/-- **C9**: for a non-empty delivery batch whose order ids are pairwise
distinct (the data model keys orders by a unique external identifier), the
success and failed id lists of `process_orders` partition the batch: every
input order's id lands in exactly one of the two, and no id outside the
batch appears in either. -/
theorem C9_success_failed_partition (inv : Option String → Bool) (db : DB)
    (orders : List FeedOrder) (hne : orders ≠ [])
    (hnd : (orders.map FeedOrder.id).Nodup) :
    (∀ o ∈ orders,
      (o.id ∈ (process_orders inv db orders).1.success
        ∧ o.id ∉ (process_orders inv db orders).1.failed)
      ∨ (o.id ∈ (process_orders inv db orders).1.failed
        ∧ o.id ∉ (process_orders inv db orders).1.success))
    ∧ (∀ x, (x ∈ (process_orders inv db orders).1.success
          ∨ x ∈ (process_orders inv db orders).1.failed) →
        x ∈ orders.map FeedOrder.id) := by
  have hcount : ∀ x : Option String,
      (process_orders inv db orders).1.success.count x
        + (process_orders inv db orders).1.failed.count x
      = (orders.map FeedOrder.id).count x := by
    intro x
    simpa [process_orders] using process_orders_go_count inv orders db [] [] x
  constructor
  · intro o ho
    have hmem : o.id ∈ orders.map FeedOrder.id := List.mem_map_of_mem _ ho
    have h1 : (orders.map FeedOrder.id).count o.id = 1 := by
      have hle := count_le_one_of_nodup hnd o.id
      have hpos := List.count_pos_iff.mpr hmem
      omega
    have h2 := hcount o.id
    rw [h1] at h2
    rcases Nat.eq_zero_or_pos ((process_orders inv db orders).1.success.count o.id) with hz | hp
    · right
      rw [hz, Nat.zero_add] at h2
      exact ⟨List.count_pos_iff.mp (by omega), fun hc => by
        have := List.count_pos_iff.mpr hc
        omega⟩
    · left
      refine ⟨List.count_pos_iff.mp hp, fun hc => ?_⟩
      have := List.count_pos_iff.mpr hc
      omega
  · intro x hx
    have hp : 0 < (orders.map FeedOrder.id).count x := by
      rw [← hcount x]
      rcases hx with hx | hx
      · have := List.count_pos_iff.mpr hx
        omega
      · have := List.count_pos_iff.mpr hx
        omega
    exact List.count_pos_iff.mp hp

def db9 : DB :=
  { products := [⟨1, "P1", true⟩], stocks := [⟨1, "PP5", true⟩],
    stock_inventory := [⟨1, 1, 7, true⟩],
    kaspi_orders := [], kaspi_sold_products := [], kaspi_canceled_orders := [] }

def o9a : FeedOrder :=
  { id := some "A", code := some "CA", status := some "S",
    pickupPointId := some "XPP5", waybill := none,
    entries := [⟨"P1", "N", 3, 100⟩] }

def o9b : FeedOrder :=
  { id := some "B", code := some "CB", status := some "S",
    pickupPointId := some "XPP5", waybill := none,
    entries := [⟨"P1", "N", 9, 100⟩] }

theorem C9_success_failed_partition_witness :
    ((some "A" : Option String) ∈ (process_orders (fun _ => true) db9 [o9a, o9b]).1.success
      ∧ (some "A" : Option String) ∉ (process_orders (fun _ => true) db9 [o9a, o9b]).1.failed)
    ∨ ((some "A" : Option String) ∈ (process_orders (fun _ => true) db9 [o9a, o9b]).1.failed
      ∧ (some "A" : Option String) ∉ (process_orders (fun _ => true) db9 [o9a, o9b]).1.success) := by
  have h := (C9_success_failed_partition (fun _ => true) db9 [o9a, o9b]
    (by decide) (by decide)).1 o9a (by decide)
  simpa using h

/-!  ## C7 -/

def env7 : MainEnv :=
  { accept := fun oid _ => oid == "OK",
    invoice_ok := fun _ => true,
    returned_archive := [], first_archive := [],
    new_orders := [⟨some "OK", some "C1", some "APPROVED_BY_BANK"⟩,
                   ⟨some "BAD", some "C2", some "APPROVED_BY_BANK"⟩],
    delivery_f := fun _ => [], archive_f := fun _ => [],
    delivery_w := fun _ => [], archive_w := fun _ => [] }

def db7 : DB := ⟨[], [], [], [], [], []⟩

/-- **C7** counterexample: order `OK` is accepted while order `BAD` fails all
three accept attempts.  `main` then returns right after the acceptance phase:
no fulfillment attempt and no waybill attempt executes, not even for the
successfully accepted order — refuting that the subsequent phases still run
for the orders that were accepted. -/
theorem C7_counterexample_failed_acceptance_aborts :
    (process_new_orders env7.accept env7.new_orders).success = ["OK"]
    ∧ (process_new_orders env7.accept env7.new_orders).failed = ["BAD"]
    ∧ (main env7 db7).fulfillment = none
    ∧ (main env7 db7).waybill = none := by
  decide

/-- **C7** amended: a non-empty failed set from the acceptance phase aborts
the run — `main` returns before the fulfillment and waybill loops, so neither
executes even for successfully accepted orders; those phases run only when no
order failed acceptance and at least one was accepted. -/
theorem C7_acceptance_failure_aborts_run (env : MainEnv) (db : DB) :
    ((process_new_orders env.accept env.new_orders).failed ≠ [] →
      (main env db).fulfillment = none ∧ (main env db).waybill = none)
    ∧ ((process_new_orders env.accept env.new_orders).failed = [] →
      (process_new_orders env.accept env.new_orders).success ≠ [] →
      (main env db).fulfillment.isSome = true) := by
  constructor
  · intro h
    simp only [main]
    rw [if_pos h]
    exact ⟨rfl, rfl⟩
  · intro h hs
    simp only [main]
    rw [if_neg (by simp [h]), if_pos hs]
    cases hexit : (fulfillment_loop_go env
        (process_new_orders env.accept env.new_orders).success 1 MAX_ATTEMPTS
        ((cancel_orders_from_archive
          (cancel_orders_from_archive db env.returned_archive).1 env.first_archive).1)).2.exit
      <;> simp [hexit]

theorem C7_acceptance_failure_aborts_run_witness :
    (main env7 db7).fulfillment = none ∧ (main env7 db7).waybill = none :=
  (C7_acceptance_failure_aborts_run env7 db7).1 (by decide)

/-!  ## C8 -/

theorem fulfillment_go_bounds (env : MainEnv) (new_ids : List String) :
    ∀ (n start : Nat) (db : DB),
      (∀ p ∈ (fulfillment_loop_go env new_ids start n db).2.attempts, start ≤ p.1)
      ∧ (∀ p ∈ (fulfillment_loop_go env new_ids start n db).2.cancel_passes, start ≤ p.1) := by
  intro n
  induction n with
  | zero =>
    intro start db
    constructor <;> intro p hp <;> simp [fulfillment_loop_go] at hp
  | succ m ih =>
    intro start db
    simp only [fulfillment_loop_go]
    split
    · constructor
      · intro p hp
        simp at hp
        rw [hp]
      · intro p hp
        simp at hp
    · split
      · constructor <;> intro p hp <;> simp at hp <;> rw [hp]
      · obtain ⟨ha, hc⟩ := ih (start + 1) _
        constructor <;> intro p hp <;> simp at hp
        · rcases hp with hp | hp
          · rw [hp]
          · exact Nat.le_of_succ_le (ha p hp)
        · rcases hp with hp | hp
          · rw [hp]
          · exact Nat.le_of_succ_le (hc p hp)

theorem fulfillment_go_rerun_and_abort (env : MainEnv) (new_ids : List String) :
    ∀ (n start : Nat) (db : DB) (k : Nat) (r : BatchResult),
      (k, r) ∈ (fulfillment_loop_go env new_ids start n db).2.attempts →
      r.success = [] →
      (∃ cs, (k, cs) ∈ (fulfillment_loop_go env new_ids start n db).2.cancel_passes)
      ∧ (∀ cids, (k, cids) ∈ (fulfillment_loop_go env new_ids start n db).2.cancel_passes →
          (∃ i, i ∈ new_ids ∧ i ∈ cids) →
          (fulfillment_loop_go env new_ids start n db).2.exit = .aborted
          ∧ ∀ p ∈ (fulfillment_loop_go env new_ids start n db).2.attempts, p.1 ≤ k) := by
  intro n
  induction n with
  | zero =>
    intro start db k r hatt
    simp [fulfillment_loop_go] at hatt
  | succ m ih =>
    intro start db k r hatt hempty
    rcases hsucc : (process_orders env.invoice_ok db (env.delivery_f start)).1.success
    case cons x xs =>
      -- the attempt at `start` broke the loop with a success
      simp only [fulfillment_loop_go] at hatt ⊢
      rw [if_pos (by rw [hsucc]; simp)] at hatt ⊢
      simp at hatt
      rw [hatt.2, hsucc] at hempty
      exact absurd hempty (by simp)
    case nil =>
    simp only [fulfillment_loop_go] at hatt ⊢
    rw [if_neg (by rw [hsucc]; simp)] at hatt ⊢
    by_cases hint : (new_ids.any fun oid =>
        (cancel_orders_from_archive
          (process_orders env.invoice_ok db (env.delivery_f start)).2
          (env.archive_f start)).2.contains oid) = true
    · rw [if_pos hint] at hatt ⊢
      simp at hatt
      refine ⟨⟨(cancel_orders_from_archive
          (process_orders env.invoice_ok db (env.delivery_f start)).2
          (env.archive_f start)).2, by simp [hatt.1]⟩, ?_⟩
      intro cids _ _
      exact ⟨rfl, by intro p hp; simp at hp; rw [hp, hatt.1]⟩
    · rw [if_neg hint] at hatt ⊢
      simp only [List.mem_cons] at hatt
      rcases hatt with hatt | hatt
      · -- k = start: the cancellation pass at `start` found no accepted id
        obtain ⟨hk, hr⟩ := Prod.mk.injEq .. ▸ hatt
        constructor
        · exact ⟨(cancel_orders_from_archive
            (process_orders env.invoice_ok db (env.delivery_f start)).2
            (env.archive_f start)).2, by simp [hk]⟩
        · intro cids hcs hex
          simp only [List.mem_cons] at hcs
          rcases hcs with hcs | hcs
          · obtain ⟨_, hcids⟩ := Prod.mk.injEq .. ▸ hcs
            exfalso
            apply hint
            rw [List.any_eq_true]
            obtain ⟨i, hi1, hi2⟩ := hex
            refine ⟨i, hi1, ?_⟩
            rw [hcids] at hi2
            exact List.elem_eq_true_of_mem hi2
          · exfalso
            have := (fulfillment_go_bounds env new_ids m (start + 1) _).2 _ hcs
            simp at this
            omega
      · -- k comes from a later attempt
        have hk1 : start + 1 ≤ k :=
          (fulfillment_go_bounds env new_ids m (start + 1) _).1 _ hatt
        obtain ⟨hre, hab⟩ := ih (start + 1) _ k r hatt hempty
        constructor
        · obtain ⟨cs, hcs⟩ := hre
          exact ⟨cs, by simp [hcs]⟩
        · intro cids hcs hex
          simp only [List.mem_cons] at hcs
          rcases hcs with hcs | hcs
          · obtain ⟨hk, _⟩ := Prod.mk.injEq .. ▸ hcs
            omega
          · obtain ⟨hexit, hbound⟩ := hab cids hcs hex
            refine ⟨hexit, ?_⟩
            intro p hp
            simp only [List.mem_cons] at hp
            rcases hp with hp | hp
            · rw [hp]; omega
            · exact hbound p hp

/-- **C8**: in `main`'s bounded-attempt fulfillment loop, every executed
attempt whose batch produced no successful order is followed by a run of the
archive-cancellation pass, and whenever that pass's returned canceled ids
contain one of the originally accepted order ids, the loop aborts there: its
exit is `aborted` and no later fulfillment attempt executes in the run. -/
theorem C8_cancellation_between_attempts_aborts (env : MainEnv) (new_ids : List String)
    (db : DB) (k : Nat) (r : BatchResult)
    (hatt : (k, r) ∈ (fulfillment_loop_go env new_ids 1 MAX_ATTEMPTS db).2.attempts)
    (hempty : r.success = []) :
    (∃ cs, (k, cs) ∈ (fulfillment_loop_go env new_ids 1 MAX_ATTEMPTS db).2.cancel_passes)
    ∧ (∀ cids, (k, cids) ∈ (fulfillment_loop_go env new_ids 1 MAX_ATTEMPTS db).2.cancel_passes →
        (∃ i, i ∈ new_ids ∧ i ∈ cids) →
        (fulfillment_loop_go env new_ids 1 MAX_ATTEMPTS db).2.exit = .aborted
        ∧ ∀ p ∈ (fulfillment_loop_go env new_ids 1 MAX_ATTEMPTS db).2.attempts, p.1 ≤ k) :=
  fulfillment_go_rerun_and_abort env new_ids MAX_ATTEMPTS 1 db k r hatt hempty

def oA8 : FeedOrder :=
  { id := some "A", code := none, status := none,
    pickupPointId := none, waybill := none, entries := [] }

def env8 : MainEnv :=
  { accept := fun _ _ => true, invoice_ok := fun _ => true,
    returned_archive := [], first_archive := [], new_orders := [],
    delivery_f := fun _ => [], archive_f := fun _ => [oA8],
    delivery_w := fun _ => [], archive_w := fun _ => [] }

def db8 : DB := ⟨[], [], [], [], [], []⟩

theorem C8_cancellation_between_attempts_aborts_witness :
    (fulfillment_loop_go env8 ["A"] 1 MAX_ATTEMPTS db8).2.exit = .aborted
    ∧ ∀ p ∈ (fulfillment_loop_go env8 ["A"] 1 MAX_ATTEMPTS db8).2.attempts, p.1 ≤ 1 :=
  (C8_cancellation_between_attempts_aborts env8 ["A"] db8 1 { success := [], failed := [] }
    (by decide) rfl).2 ["A"] (by decide) ⟨"A", by decide, by decide⟩

/-!  ## C1 -/

theorem stockNonneg_of_inventory_eq {db db' : DB}
    (h : db'.stock_inventory = db.stock_inventory) (hn : stockNonneg db) : stockNonneg db' := by
  intro x hx
  rw [h] at hx
  exact hn x hx

theorem update_stock_nonneg (db : DB) (pc : String) (nq oq : Int) (op : String)
    (sn : Option String) (h : stockNonneg db) :
    stockNonneg (update_stock_quantity_and_log db pc nq oq op sn) := by
  unfold update_stock_quantity_and_log
  split
  · exact h
  next stock hs =>
    split
    · exact h
    next product hp =>
      split
      · exact h
      next inv0 hi =>
        by_cases hneg : nq < 0
        · rw [if_pos hneg]
          exact h
        · rw [if_neg hneg]
          intro x hx
          simp only [List.mem_map] at hx
          obtain ⟨a, ha, hax⟩ := hx
          by_cases hcond : ((a.product_id == product.id) && (a.stock_id == stock.id)
              && a.is_active) = true
          · rw [if_pos hcond] at hax
            rw [← hax]
            exact Int.not_lt.mp hneg
          · rw [if_neg hcond] at hax
            rw [← hax]
            exact h a ha

theorem decrement_entries_nonneg (stock_name : String) (entries : List OrderEntry) :
    ∀ db : DB, stockNonneg db → stockNonneg (decrement_entries db stock_name entries) := by
  induction entries with
  | nil => intro db h; exact h
  | cons e rest ih =>
    intro db h
    exact ih _ (update_stock_nonneg _ _ _ _ _ _ h)

theorem process_single_order_nonneg (b : Bool) (db : DB) (o : FeedOrder)
    (h : stockNonneg db) : stockNonneg (process_single_order b db o).2 := by
  unfold process_single_order
  repeat' split
  all_goals
    first
      | exact h
      | exact stockNonneg_of_inventory_eq rfl (decrement_entries_nonneg _ _ db h)
      | exact decrement_entries_nonneg _ _ db h

theorem process_product_cancellation_nonneg (db : DB) (pc : String) (q : Int) (oid : String)
    (h : stockNonneg db) : stockNonneg (process_product_cancellation db pc q oid) := by
  unfold process_product_cancellation
  split
  · exact h
  · split
    · exact h
    · exact update_stock_nonneg _ _ _ _ _ _ (stockNonneg_of_inventory_eq rfl h)

theorem cancel_fold_nonneg (oid : String) (prs : List (String × Int × String)) :
    ∀ db : DB, stockNonneg db →
      stockNonneg (prs.foldl (fun d pr => process_product_cancellation d pr.1 pr.2.1 oid) db) := by
  induction prs with
  | nil => intro db h; exact h
  | cons p rest ih =>
    intro db h
    exact ih _ (process_product_cancellation_nonneg _ _ _ _ h)

theorem cancel_single_order_nonneg (db : DB) (o : FeedOrder) (h : stockNonneg db) :
    stockNonneg (cancel_single_order db o) := by
  simp only [cancel_single_order]
  split
  · exact h
  · split
    · exact h
    · split
      · exact h
      · split
        · exact h
        · split
          · exact h
          · exact stockNonneg_of_inventory_eq rfl (cancel_fold_nonneg _ _ db h)

theorem process_orders_go_nonneg (inv : Option String → Bool) (orders : List FeedOrder) :
    ∀ (db : DB) (s f : List (Option String)), stockNonneg db →
      stockNonneg (process_orders_go inv orders db s f).2 := by
  induction orders with
  | nil => intro db s f h; exact h
  | cons o rest ih =>
    intro db s f h
    simp only [process_orders_go]
    split <;> exact ih _ _ _ (process_single_order_nonneg _ db o h)

theorem cancel_archive_task_fst (acc : DB × List String) (o : FeedOrder) :
    (cancel_archive_task acc o).1 = cancel_single_order acc.1 o := by
  unfold cancel_archive_task
  split
  · split <;> rfl
  · rfl

theorem cancel_archive_nonneg (archived : List FeedOrder) :
    ∀ (db : DB) (acc : List String), stockNonneg db →
      stockNonneg (archived.foldl cancel_archive_task (db, acc)).1 := by
  induction archived with
  | nil => intro db acc h; exact h
  | cons o rest ih =>
    intro db acc h
    rw [List.foldl_cons]
    have h2 : stockNonneg (cancel_archive_task (db, acc) o).1 := by
      rw [cancel_archive_task_fst]
      exact cancel_single_order_nonneg db o h
    exact ih _ _ h2

theorem save_waybill_step_inventory (acc : DB × List (Option String)) (o : FeedOrder) :
    (save_waybill_step acc o).1.stock_inventory = acc.1.stock_inventory := by
  simp only [save_waybill_step]
  split
  · rfl
  · split <;> rfl

theorem save_waybill_links_inventory (orders : List FeedOrder) :
    ∀ (db : DB) (acc : List (Option String)),
      (orders.foldl save_waybill_step (db, acc)).1.stock_inventory = db.stock_inventory := by
  induction orders with
  | nil => intro db acc; rfl
  | cons o rest ih =>
    intro db acc
    rw [List.foldl_cons]
    have h1 := ih (save_waybill_step (db, acc) o).1 (save_waybill_step (db, acc) o).2
    rw [save_waybill_step_inventory] at h1
    exact h1

theorem apply_op_nonneg (db : DB) (op : Op) (h : stockNonneg db) :
    stockNonneg (apply_op db op) := by
  cases op with
  | updateStock c =>
    exact update_stock_nonneg db c.product_code c.new_quantity c.order_quantity
      c.operation c.stock_name h
  | processOrder b o => exact process_single_order_nonneg b db o h
  | processBatch inv os => exact process_orders_go_nonneg inv os db [] [] h
  | cancelOrder o => exact cancel_single_order_nonneg db o h
  | cancelArchive os => exact cancel_archive_nonneg os db [] h
  | waybillLinks os =>
    exact stockNonneg_of_inventory_eq (save_waybill_links_inventory os db []) h

/-- **C1**: a stock-update call with a negative requested quantity, or whose
stock location, product, or inventory row is missing/inactive, leaves the
database exactly as it was; and since every write path of every engine
operation goes through this guard, non-negativity of all stored stock
quantities is preserved by any sequence of engine operations. -/
theorem C1_stock_update_guard_and_nonneg :
    (∀ (db : DB) (c : UpdateCall),
      (c.new_quantity < 0
        ∨ find_stock db c.stock_name = none
        ∨ find_product db c.product_code = none
        ∨ (∀ s p, find_stock db c.stock_name = some s →
            find_product db c.product_code = some p → find_inventory db p s = none))
      → apply_update db c = db)
    ∧ (∀ (db : DB) (ops : List Op), stockNonneg db → stockNonneg (ops.foldl apply_op db)) := by
  constructor
  · intro db c hrej
    unfold apply_update update_stock_quantity_and_log
    split
    · rfl
    next stock hs =>
      split
      · rfl
      next product hp =>
        split
        · rfl
        next inv0 hi =>
          rcases hrej with hneg | h1 | h2 | h3
          · rw [if_pos hneg]
          · rw [h1] at hs
            cases hs
          · rw [h2] at hp
            cases hp
          · rw [h3 stock product hs hp] at hi
            cases hi
  · intro db ops h
    induction ops generalizing db with
    | nil => exact h
    | cons op rest ih => exact ih _ (apply_op_nonneg db op h)

def db1w : DB :=
  { products := [⟨1, "P1", true⟩], stocks := [⟨1, "PP5", true⟩],
    stock_inventory := [⟨1, 1, 4, true⟩],
    kaspi_orders := [], kaspi_sold_products := [], kaspi_canceled_orders := [] }

theorem C1_stock_update_guard_and_nonneg_witness :
    apply_update db1w ⟨"P1", -1, 1, "sales", some "PP5"⟩ = db1w
    ∧ stockNonneg
        ([Op.updateStock ⟨"P1", 0, 4, "sales", some "PP5"⟩].foldl apply_op db1w) :=
  ⟨C1_stock_update_guard_and_nonneg.1 db1w _ (Or.inl (by decide)),
   C1_stock_update_guard_and_nonneg.2 db1w _ (by unfold stockNonneg; decide)⟩

/-!  ## C5 -/

theorem update_stock_kaspi_orders (db : DB) (pc : String) (nq oq : Int) (op : String)
    (sn : Option String) :
    (update_stock_quantity_and_log db pc nq oq op sn).kaspi_orders = db.kaspi_orders := by
  unfold update_stock_quantity_and_log
  repeat' split
  all_goals rfl

theorem process_product_cancellation_kaspi_orders (db : DB) (pc : String) (q : Int)
    (oid : String) :
    (process_product_cancellation db pc q oid).kaspi_orders = db.kaspi_orders := by
  simp only [process_product_cancellation]
  split
  · rfl
  · split
    · rfl
    · rw [update_stock_kaspi_orders]
      rfl

theorem cancel_fold_kaspi_orders (oid : String) (prs : List (String × Int × String)) :
    ∀ db : DB,
      (prs.foldl (fun d pr => process_product_cancellation d pr.1 pr.2.1 oid) db).kaspi_orders
        = db.kaspi_orders := by
  induction prs with
  | nil => intro db; rfl
  | cons p rest ih =>
    intro db
    rw [List.foldl_cons, ih, process_product_cancellation_kaspi_orders]

theorem is_order_processed_congr {d d' : DB} (h : d'.kaspi_orders = d.kaspi_orders)
    (x : Option String) : is_order_processed d' x = is_order_processed d x := by
  unfold is_order_processed
  rw [h]

theorem find_mark_canceled (l : List KaspiOrder) (oid : String)
    (h : (l.any fun ko => some ko.order_id == some oid) = true) :
    ∃ r, ((l.map fun ko =>
        if ko.order_id == oid then { ko with is_canceled := true } else ko).find?
      fun ko => ko.order_id == oid) = some r ∧ r.is_canceled = true := by
  induction l with
  | nil => simp at h
  | cons ko rest ih =>
    by_cases hk : (ko.order_id == oid) = true
    · refine ⟨{ ko with is_canceled := true }, ?_, rfl⟩
      rw [List.map_cons, if_pos hk]
      exact List.find?_cons_of_pos _ hk
    · have h' : (rest.any fun ko => some ko.order_id == some oid) = true := by
        simp only [List.any_cons] at h
        rcases (Bool.or_eq_true _ _).mp h with h | h
        · exact absurd (by simpa using h) hk
        · exact h
      obtain ⟨r, hr, hc⟩ := ih h'
      refine ⟨r, ?_, hc⟩
      rw [List.map_cons, if_neg hk]
      simpa [List.find?_cons_of_neg, hk] using hr

theorem mark_canceled_true (d : DB) (oid : String)
    (h : is_order_processed d (some oid) = true) :
    is_order_canceled (mark_order_as_canceled d oid) oid = true := by
  unfold is_order_processed at h
  obtain ⟨r, hr, hc⟩ := find_mark_canceled d.kaspi_orders oid h
  show (match (d.kaspi_orders.map fun ko =>
        if ko.order_id == oid then { ko with is_canceled := true } else ko).find?
      (fun ko => ko.order_id == oid) with
    | some ko => ko.is_canceled
    | none => false) = true
  rw [hr]
  exact hc

theorem cancel_skip_not_processed (db : DB) (o : FeedOrder) (oid : String)
    (hid : o.id = some oid) (h : is_order_processed db (some oid) = false) :
    cancel_single_order db o = db := by
  simp only [cancel_single_order, hid]
  by_cases he : oid = ""
  · rw [if_pos he]
  · rw [if_neg he, if_pos h]

theorem cancel_skip_canceled (db : DB) (o : FeedOrder) (oid : String)
    (hid : o.id = some oid) (h : is_order_canceled db oid = true) :
    cancel_single_order db o = db := by
  simp only [cancel_single_order, hid]
  by_cases he : oid = ""
  · rw [if_pos he]
  · rw [if_neg he]
    by_cases hp : is_order_processed db (some oid) = false
    · rw [if_pos hp]
    · rw [if_neg hp, if_pos h]

theorem cancel_run (db : DB) (o : FeedOrder) (oid : String)
    (hid : o.id = some oid) (he : oid ≠ "")
    (hp : is_order_processed db (some oid) = true)
    (hc : is_order_canceled db oid = false)
    (hne : get_order_products db oid ≠ []) :
    cancel_single_order db o = mark_order_as_canceled
      ((get_order_products db oid).foldl
        (fun d pr => process_product_cancellation d pr.1 pr.2.1 oid) db) oid := by
  simp only [cancel_single_order, hid]
  rw [if_neg he, if_neg (by rw [hp]; exact (fun hcon => Bool.noConfusion hcon)),
    if_neg (by rw [hc]; exact (fun hcon => Bool.noConfusion hcon)), if_neg hne]

/-- **C5**: the cancellation pipeline skips (state unchanged, no stock
restored) on an order that was never recorded or is already marked canceled;
it is idempotent, so a second call on the same order id restores nothing —
the per-line-item restoration of the first call happens exactly once — and on
the committed path the canceled mark is applied only to the state in which
every persisted line item has already gone through its reversal step. -/
theorem C5_cancellation_idempotent :
    (∀ (db : DB) (o : FeedOrder) (oid : String), o.id = some oid →
      is_order_processed db (some oid) = false → cancel_single_order db o = db)
    ∧ (∀ (db : DB) (o : FeedOrder) (oid : String), o.id = some oid →
      is_order_canceled db oid = true → cancel_single_order db o = db)
    ∧ (∀ (db : DB) (o : FeedOrder),
      cancel_single_order (cancel_single_order db o) o = cancel_single_order db o)
    ∧ (∀ (db : DB) (o : FeedOrder) (oid : String), o.id = some oid → oid ≠ "" →
      is_order_processed db (some oid) = true → is_order_canceled db oid = false →
      get_order_products db oid ≠ [] →
      cancel_single_order db o = mark_order_as_canceled
        ((get_order_products db oid).foldl
          (fun d pr => process_product_cancellation d pr.1 pr.2.1 oid) db) oid) := by
  refine ⟨cancel_skip_not_processed, cancel_skip_canceled, ?_, cancel_run⟩
  intro db o
  cases hid : o.id with
  | none =>
    have h0 : cancel_single_order db o = db := by simp [cancel_single_order, hid]
    rw [h0]
    exact h0
  | some oid =>
    by_cases he : oid = ""
    · have h0 : cancel_single_order db o = db := by simp [cancel_single_order, hid, he]
      rw [h0]
      exact h0
    · cases hp : is_order_processed db (some oid) with
      | false =>
        have h0 := cancel_skip_not_processed db o oid hid hp
        rw [h0]
        exact h0
      | true =>
        cases hc : is_order_canceled db oid with
        | true =>
          have h0 := cancel_skip_canceled db o oid hid hc
          rw [h0]
          exact h0
        | false =>
          by_cases hne : get_order_products db oid = []
          · have h0 : cancel_single_order db o = db := by
              simp only [cancel_single_order, hid]
              rw [if_neg he, if_neg (by rw [hp]; exact (fun hcon => Bool.noConfusion hcon)),
                if_neg (by rw [hc]; exact (fun hcon => Bool.noConfusion hcon)), if_pos hne]
            rw [h0]
            exact h0
          · rw [cancel_run db o oid hid he hp hc hne]
            apply cancel_skip_canceled _ o oid hid
            apply mark_canceled_true
            rw [is_order_processed_congr
              (cancel_fold_kaspi_orders oid (get_order_products db oid) db) (some oid)]
            exact hp

def db5 : DB :=
  { products := [⟨1, "P1", true⟩], stocks := [⟨1, "PP5", true⟩],
    stock_inventory := [⟨1, 1, 7, true⟩],
    kaspi_orders := [⟨"O5", "C5", "S", "PP5", false, false⟩],
    kaspi_sold_products := [⟨"O5", "C5", "P1", "N", 3, none⟩],
    kaspi_canceled_orders := [] }

def o5 : FeedOrder :=
  { id := some "O5", code := some "C5", status := some "S",
    pickupPointId := none, waybill := none, entries := [] }

def o5x : FeedOrder :=
  { id := some "OTHER", code := none, status := none,
    pickupPointId := none, waybill := none, entries := [] }

theorem C5_cancellation_idempotent_witness :
    cancel_single_order (cancel_single_order db5 o5) o5 = cancel_single_order db5 o5
    ∧ cancel_single_order db5 o5x = db5 :=
  ⟨C5_cancellation_idempotent.2.2.1 db5 o5,
   C5_cancellation_idempotent.1 db5 o5x "OTHER" rfl (by decide)⟩

end SaraKas
